import Mathlib

/-!
Shallow embedding of the hudingyu/static-webserver repository
(src/bin/server.js together with its MIME module) in Lean 4.

Modelling conventions:
* JS strings are Lean `String`s; scanning helpers work on `List Char`.
* JS numbers that hold byte offsets are `Int` (so that `totalSize - end`
  can go negative exactly as in JS); `NaN` produced by `parseInt` on an
  empty capture group is modelled by `Option Int` with `none` for `NaN`.
  Every JS comparison `x > y` involving a possible `NaN` is modelled by
  `jsGt`/`jsGtC`, which return `false` when either side is `NaN`,
  matching IEEE comparison semantics used by JS.
* A thrown `TypeError` (e.g. `null[1]` after a failed regex match, or
  `stat.size` on a `null` stat) is modelled by an `Option`/`Outcome.crash`
  result.
* Node collaborators that live outside this repository (fs, path, url
  date formatting and the configured `zipMatch` regex) are passed in as
  explicit function parameters (`Ext`, `Config.zipMatchF`); the server's
  own logic is translated literally.
* Node lowercases response-header names in `res._headers` (which
  `isFresh` reads back); header keys therefore appear lowercased here.
-/

namespace StaticServer

/-- Word characters of the JS regex class `\w` = `[A-Za-z0-9_]`. -/
def isWordChar (c : Char) : Bool := c.isAlpha || c.isDigit || c == '_'

/-- Does list `p` occur as a prefix of `l`? (used to model JS regex/indexOf scans). -/
def listStartsWith : List Char → List Char → Bool
  | [], _ => true
  | _ :: _, [] => false
  | a :: as, b :: bs => a == b && listStartsWith as bs

/-- First index at which `sub` occurs in `l`, like JS `String.prototype.indexOf`
(`none` for JS `-1`). -/
def indexOfAux (sub : List Char) : List Char → Option Nat
  | [] => if listStartsWith sub [] then some 0 else none
  | c :: t =>
    if listStartsWith sub (c :: t) then some 0
    else (indexOfAux sub t).map (fun n => n + 1)

/-- JS `s.indexOf(sub) >= 0`. -/
def containsSub (l sub : List Char) : Bool := (indexOfAux sub l).isSome

/-- A `\b` boundary holds next to `c` (`none` = edge of the string). -/
def boundaryOk : Option Char → Bool
  | none => true
  | some c => !isWordChar c

/-- Does the word `w` occur in the list with `\b` boundaries on both sides?
Models JS `s.match(/\bw\b/) !== null` for a word `w` made of word characters. -/
def containsWordAux (w : List Char) : Option Char → List Char → Bool
  | prev, [] => boundaryOk prev && listStartsWith w []
  | prev, c :: t =>
    (boundaryOk prev && listStartsWith w (c :: t) &&
      boundaryOk (((c :: t).drop w.length).head?)) ||
    containsWordAux w (some c) t

/-- JS `s.match(/\bw\b/) !== null`. -/
def containsWord (s : String) (w : List Char) : Bool :=
  containsWordAux w none s.toList

/-- The literal characters of `"bytes="` from the range regex. -/
def bytesEqChars : List Char := ['b', 'y', 't', 'e', 's', '=']

/-- The literal characters of `"static"` (server-loop URL rewrite). -/
def staticChars : List Char := ['s', 't', 'a', 't', 'i', 'c']

/-- The literal characters of `"article/"` (SPA fallback test). -/
def articleChars : List Char := ['a', 'r', 't', 'i', 'c', 'l', 'e', '/']

/-- The literal characters of `"homepage"` (SPA fallback test). -/
def homepageChars : List Char := ['h', 'o', 'm', 'e', 'p', 'a', 'g', 'e']

/-- The literal characters of `"gzip"`. -/
def gzipChars : List Char := ['g', 'z', 'i', 'p']

/-- The literal characters of `"deflate"`. -/
def deflateChars : List Char := ['d', 'e', 'f', 'l', 'a', 't', 'e']

/-- All characters are decimal digits (the regex class `[0-9]*` matched fully). -/
def allDigits (l : List Char) : Bool := l.all Char.isDigit

/-- Decimal value of a digit string (JS `parseInt` on an all-digit string). -/
def digitsToNat (l : List Char) : Nat :=
  l.foldl (fun n c => 10 * n + (c.toNat - 48)) 0

/-- JS `parseInt` applied to a `[0-9]*` capture group: `NaN` (= `none`) on the
empty group, otherwise the decimal value. -/
def parseIntJS (l : List Char) : Option Int :=
  match l with
  | [] => none
  | _ => some (digitsToNat l)

/-- Attempt to match the regex `bytes=([0-9]*)-([0-9]*)` anchored at the head of
`l`; on success returns the two capture groups.  Both `[0-9]*` groups are
greedy, and since a shorter digit run would leave a digit (never `-`) as the
next character, greedy matching without backtracking is exact here. -/
def matchBytesAt (l : List Char) : Option (List Char × List Char) :=
  if listStartsWith bytesEqChars l then
    let r := l.drop 6
    let d1 := r.takeWhile Char.isDigit
    match r.dropWhile Char.isDigit with
    | '-' :: r2 => some (d1, r2.takeWhile Char.isDigit)
    | _ => none
  else none

/-- Leftmost match of `bytes=([0-9]*)-([0-9]*)` in `l`, like
`rangeText.match(...)`; `none` models the JS `null` result. -/
def findBytesMatch : List Char → Option (List Char × List Char)
  | [] => none
  | c :: t =>
    match matchBytesAt (c :: t) with
    | some r => some r
    | none => findBytesMatch t

/-- JS `x > y` where both sides may be `NaN`: false if either is `NaN`. -/
def jsGt (a b : Option Int) : Bool :=
  match a, b with
  | some x, some y => decide (x > y)
  | _, _ => false

/-- JS `x > n` where the left side may be `NaN`. -/
def jsGtC (a : Option Int) (n : Int) : Bool :=
  match a with
  | some x => decide (x > n)
  | none => false

/-- `getRange(rangeText, totalSize)` from server.js lines 45-59.
Outer `none` models the thrown `TypeError` when the regex does not match
(`matchResults` is `null` and `matchResults[1]` throws).  Inner `none`s are
the `NaN`s produced by `parseInt` on empty capture groups. -/
def getRange (rangeText : String) (totalSize : Int) :
    Option (Option Int × Option Int) :=
  match findBytesMatch rangeText.toList with
  | none => none
  | some (g1, g2) =>
    match parseIntJS g1, parseIntJS g2 with
    | none, some e => some (some (totalSize - e), some (totalSize - 1))
    | some s, none => some (some s, some (totalSize - 1))
    | s, e => some (s, e)

/-- "NaN" rendering of a possibly-NaN number inside a template literal. -/
def optIntStr : Option Int → String
  | none => "NaN"
  | some n => toString n

/-- The `Content-Range` value `bytes start-end/total` of the 206 branch. -/
def crStr (s e : Option Int) (total : Int) : String :=
  "bytes " ++ optIntStr s ++ "-" ++ optIntStr e ++ "/" ++ toString total

/-- Result of `rangeHandler`: the response status it set, the `Content-Range`
header it set, and the stream it returned — `none` models `return null` after
`res.end()` (status 416, empty body, no stream opened), `some (p, s, e)`
models `fs.createReadStream(p, {start, end})`. -/
structure RangeRes where
  status : Nat
  contentRange : String
  stream : Option (String × Option Int × Option Int)
  deriving DecidableEq, Repr

/-- `rangeHandler(pathName, rangeText, totalSize, res)` from server.js lines
61-73.  `none` propagates the `TypeError` thrown inside `getRange`. -/
def rangeHandler (pathName rangeText : String) (totalSize : Int) :
    Option RangeRes :=
  match getRange rangeText totalSize with
  | none => none
  | some (s, e) =>
    if jsGt s e || jsGtC s totalSize || jsGtC e totalSize then
      some ⟨416, "bytes */" ++ toString totalSize, none⟩
    else
      some ⟨206, crStr s e totalSize, some (pathName, s, e)⟩

/-! Response-side data model: headers, requests, outcomes. -/

/-- Accumulated response headers, keys lowercased as Node stores them. -/
def Headers := List (String × String)
deriving DecidableEq, Repr

/-- First binding of a key, like Node reading `res._headers[k]` or
`req.headers[k]` (`none` = JS `undefined`). -/
def lookupH : Headers → String → Option String
  | [], _ => none
  | (k, v) :: t, q => if k = q then some v else lookupH t q

/-- `res.setHeader(k, v)`: the new binding shadows any earlier one.  Keys are
supplied already lowercased (Node lowercases them in `res._headers`). -/
def setH (hs : Headers) (k v : String) : Headers := (k, v) :: hs

/-- JS truthiness of a possibly-absent header string: `undefined` and the
empty string are falsy. -/
def truthyOpt : Option String → Bool
  | none => false
  | some s => !(s == "")

/-- An incoming request: `req.url` and `req.headers` (keys lowercased by Node). -/
structure Req where
  url : String
  headers : Headers
  deriving Repr

/-- Snapshot of `fs.stat`: directory flag, byte size, `mtime.getTime()` in ms. -/
structure FileStat where
  isDirectory : Bool
  size : Int
  mtimeMs : Nat
  deriving DecidableEq, Repr

/-- Compression transform wrapped around the read stream. -/
inductive Enc where
  | identity
  | gzipEnc
  | deflateEnc
  deriving DecidableEq, Repr

/-- Body of a finished response. -/
inductive Body where
  /-- `res.end()` with nothing written. -/
  | empty
  /-- `res.end(string)`. -/
  | text (s : String)
  /-- a read stream over `pathName` piped to the response; `rng = some (s, e)`
  is `fs.createReadStream(pathName, {start, end})` (possibly `NaN` bounds),
  `rng = none` the whole file; `enc` the compression wrap. -/
  | fileStream (pathName : String) (rng : Option (Option Int × Option Int)) (enc : Enc)
  /-- `res.end(err)` with the raw error object. -/
  | errObj
  deriving DecidableEq, Repr

/-- A finished response: status code, headers, body. -/
structure Resp where
  status : Nat
  headers : Headers
  body : Body
  deriving DecidableEq, Repr

/-- Outcome of one request: a finished response, or an uncaught JS exception. -/
inductive Outcome where
  | ok (r : Resp)
  | crash (reason : String)
  deriving DecidableEq, Repr

/-- Status actually sent, `none` when the handler crashed before responding. -/
def statusOf : Outcome → Option Nat
  | .ok r => some r.status
  | .crash _ => none

/-- Immutable per-process configuration (`StaticServer` constructor).
`zipMatchF` is the test of the configured `zipMatch` regex against an
extension string (the regex itself comes from config/default.json, outside
this repository's source, so it stays an abstract predicate). -/
structure Config where
  root : String
  indexPage : String
  enableCacheControl : Bool
  enableExpires : Bool
  enableETag : Bool
  enableLastModified : Bool
  maxAge : Nat
  zipMatchF : String → Bool

/-- External Node collaborators (fs, path, url, Date), passed explicitly:
the server code treats them as opaque capabilities (spec section 6). -/
structure Ext where
  /-- `fs.stat` / `fs.statSync`: `none` models the error/throw case. -/
  statF : String → Option FileStat
  /-- `fs.existsSync`. -/
  existsSyncF : String → Bool
  /-- `fs.readdir`: `none` models the error case. -/
  readdirF : String → Option (List String)
  /-- `path.join` on two segments. -/
  pathJoinF : String → String → String
  /-- `path.normalize`. -/
  pathNormalizeF : String → String
  /-- `path.extname`. -/
  extnameF : String → String
  /-- `Date.prototype.toUTCString` of an epoch-milliseconds value. -/
  toUTCStringF : Nat → String
  /-- `Date.now()`. -/
  nowMs : Nat

/-! The MIME module (src mime file). -/

/-- The static extension-to-type table of the MIME module. -/
def mimeTypes : List (String × String) :=
  [("css", "text/css"), ("gif", "image/gif"), ("html", "text/html"),
   ("ico", "image/x-icon"), ("jpeg", "image/jpeg"), ("png", "image/png"),
   ("jpg", "image/jpg"), ("txt", "text/plain"), ("json", "application/json"),
   ("js", "text/javascript")]

/-- `ext.split('.').pop()`: the suffix after the last dot (whole string when
there is no dot). -/
def splitPop (s : String) : String :=
  String.mk (s.toList.foldl (fun acc c => if c = '.' then [] else acc ++ [c]) [])

/-- `lookup(pathName)` of the MIME module: extension via `path.extname`,
stripped of its dot, looked up in the table, falling back to `text/plain`. -/
def mimeLookup (ext : Ext) (pathName : String) : String :=
  match lookupH mimeTypes (splitPop (ext.extnameF pathName)) with
  | some t => t
  | none => "text/plain"

/-! Content transfer engine. -/

/-- `shouldCompress(pathName)` from server.js lines 75-77. -/
def shouldCompress (cfg : Config) (ext : Ext) (pathName : String) : Bool :=
  cfg.zipMatchF (ext.extnameF pathName)

/-- `compressHandler(readStream, req, res)` from server.js lines 79-90:
given the `Accept-Encoding` value, returns the chosen wrap and the updated
response headers; `none` models the implicit `undefined` return of the
unreachable final branch (later `readStream.pipe` would then throw). -/
def compressHandler (ae : Option String) (hs : Headers) : Option (Enc × Headers) :=
  match ae with
  | none => some (.identity, hs)
  | some s =>
    if s = "" then some (.identity, hs)
    else if !(containsWord s gzipChars || containsWord s deflateChars) then
      some (.identity, hs)
    else if containsWord s gzipChars then
      some (.gzipEnc, setH hs "content-encoding" "gzip")
    else if containsWord s deflateChars then
      some (.deflateEnc, setH hs "content-encoding" "deflate")
    else none

/-- Tail of `respondFile` (server.js lines 103-106): the compression stage and
the final `readStream.pipe(res)` on an already-chosen stream. -/
def finishStream (cfg : Config) (ext : Ext) (pathName : String) (req : Req)
    (hs : Headers) (status : Nat) (rng : Option (Option Int × Option Int)) :
    Outcome :=
  if shouldCompress cfg ext pathName then
    match compressHandler (lookupH req.headers "accept-encoding") hs with
    | some (enc, hs2) => .ok ⟨status, hs2, .fileStream pathName rng enc⟩
    | none => .crash "pipe on undefined"
  else .ok ⟨status, hs, .fileStream pathName rng .identity⟩

/-- `respondFile(stat, pathName, req, res)` from server.js lines 92-107.
`stat = none` is the `null` passed by the SPA-fallback branch; reading
`stat.size` then throws, modelled by `.crash`. -/
def respondFile (cfg : Config) (ext : Ext) (stat : Option FileStat)
    (pathName : String) (req : Req) (h0 : Headers) : Outcome :=
  let h1 := setH h0 "content-type" (mimeLookup ext pathName)
  let h2 := setH h1 "accept-ranges" "bytes"
  match lookupH req.headers "range" with
  | some rv =>
    if rv = "" then finishStream cfg ext pathName req h2 200 none
    else
      match stat with
      | none => .crash "stat.size on null"
      | some st =>
        match rangeHandler pathName rv st.size with
        | none => .crash "TypeError in getRange"
        | some rr =>
          let h3 := setH h2 "content-range" rr.contentRange
          match rr.stream with
          | none => .ok ⟨rr.status, h3, .empty⟩
          | some (_, s, e) =>
            finishStream cfg ext pathName req h3 rr.status (some (s, e))
  | none => finishStream cfg ext pathName req h2 200 none

/-! Freshness evaluator. -/

/-- `generateETag(stat)` from server.js lines 109-113: a weak validator from
size (decimal) and mtime (lowercase hex, as JS `toString(16)`). -/
def generateETag (st : FileStat) : String :=
  "W/\"" ++ toString st.size ++ "-" ++ String.mk (Nat.toDigits 16 st.mtimeMs) ++ "\""

/-- `setFreshHeaders(stat, res)` from server.js lines 115-130, per the four
feature toggles. -/
def setFreshHeaders (cfg : Config) (ext : Ext) (st : FileStat) (hs : Headers) :
    Headers :=
  let h1 := if cfg.enableLastModified
    then setH hs "last-modified" (ext.toUTCStringF st.mtimeMs) else hs
  let h2 := if cfg.enableCacheControl
    then setH h1 "cache-control" ("public, max-age=" ++ toString cfg.maxAge) else h1
  let h3 := if cfg.enableETag then setH h2 "etag" (generateETag st) else h2
  if cfg.enableExpires
    then setH h3 "expires" (ext.toUTCStringF (ext.nowMs + cfg.maxAge * 1000)) else h3

/-- `isFresh(reqHeaders, resHeaders)` from server.js lines 132-139.
Note the truthiness tests and the exact string (in)equality against the
response's own headers. -/
def isFresh (reqH resH : Headers) : Bool :=
  let noneMatch := lookupH reqH "if-none-match"
  let lastModified := lookupH reqH "if-modified-since"
  if !truthyOpt noneMatch && !truthyOpt lastModified then false
  else if truthyOpt noneMatch && !(noneMatch == lookupH resH "etag") then false
  else if truthyOpt lastModified && !(lastModified == lookupH resH "last-modified")
    then false
  else true

/-- `respond(pathName, req, res)` from server.js lines 151-164 (the branches
`respondNotModified` and `respondError` are inlined as their response
effects: 304 empty body, and 500 with the raw error object). -/
def respond (cfg : Config) (ext : Ext) (pathName : String) (req : Req) : Outcome :=
  match ext.statF pathName with
  | none => .ok ⟨500, [], .errObj⟩
  | some st =>
    let hs := setFreshHeaders cfg ext st []
    if isFresh req.headers hs then .ok ⟨304, hs, .empty⟩
    else respondFile cfg ext (some st) pathName req hs

/-! Path router and server loop. -/

/-- Body of `respondNotFound` (server.js lines 166-171). -/
def notFoundBody (u : String) : String :=
  "<h1>Not Found</h1><p>The requested URL " ++ u ++ " was not found on this server.</p>"

/-- `respondNotFound(req, res)`: 400 with an HTML body naming `req.url`. -/
def respondNotFound (req : Req) : Outcome :=
  .ok ⟨400, [("content-type", "text/html")], .text (notFoundBody req.url)⟩

/-- `respondRedirect(req, res)` from server.js lines 203-210: 301 to
`req.url + '/'`. -/
def respondRedirect (req : Req) : Outcome :=
  let loc := req.url ++ "/"
  .ok ⟨301, [("location", loc), ("content-type", "text/html")],
    .text ("Redirecting to <a href=\x27" ++ loc ++ "\x27>" ++ loc ++ "</a>")⟩

/-- `url.parse(u).pathname` for an origin-form request target: everything up
to the first `?` or `#`. -/
def urlPathname (u : String) : String :=
  String.mk (u.toList.takeWhile (fun c => !(c == '?' || c == '#')))

/-- `hasTrailingSlash` from server.js line 30: `url[url.length-1] === '/'`. -/
def hasTrailingSlash (u : String) : Bool :=
  match u.toList.getLast? with
  | some c => c == '/'
  | none => false

/-- One `<p><a ...>` line of the directory listing (server.js lines 182-189);
`none` models `fs.statSync` throwing. -/
def dirEntry (ext : Ext) (requestPath pathName file : String) : Option String :=
  match ext.statF (ext.pathJoinF pathName file) with
  | none => none
  | some st =>
    let fp := ext.pathJoinF requestPath file
    if st.isDirectory then
      some ("<p><a href=\x27" ++ ext.pathJoinF fp "/" ++ "\x27>" ++
        ext.pathJoinF file "/" ++ "</a></a></p>")
    else
      some ("<p><a href=\x27" ++ fp ++ "\x27>" ++ file ++ "</a></a></p>")

/-- The concatenated listing lines for all entries. -/
def dirContent (ext : Ext) (requestPath pathName : String) :
    List String → Option String
  | [] => some ""
  | f :: fs =>
    match dirEntry ext requestPath pathName f,
          dirContent ext requestPath pathName fs with
    | some a, some b => some (a ++ b)
    | _, _ => none

/-- `respondDirectory(pathName, req, res)` from server.js lines 173-201. -/
def respondDirectory (cfg : Config) (ext : Ext) (pathName : String) (req : Req) :
    Outcome :=
  let indexPagePath := ext.pathJoinF pathName cfg.indexPage
  if ext.existsSyncF indexPagePath then respond cfg ext indexPagePath req
  else
    match ext.readdirF pathName with
    | some files =>
      let requestPath := urlPathname req.url
      match dirContent ext requestPath pathName files with
      | some content =>
        .ok ⟨200, [("content-type", "text/html")],
          .text ("<h1>Index of " ++ requestPath ++ ":</h1>" ++ content)⟩
      | none => .crash "statSync threw"
    | none => .ok ⟨500, [], .errObj⟩

/-- `routeHandler(pathName, req, res)` from server.js lines 212-231. -/
def routeHandler (cfg : Config) (ext : Ext) (pathName : String) (req : Req) :
    Outcome :=
  if containsSub pathName.toList articleChars ||
     containsSub pathName.toList homepageChars then
    respondFile cfg ext none (ext.pathJoinF cfg.root cfg.indexPage) req []
  else
    match ext.statF pathName with
    | some st =>
      let requestedPath := urlPathname req.url
      if hasTrailingSlash requestedPath && st.isDirectory then
        respondDirectory cfg ext pathName req
      else if st.isDirectory then respondRedirect req
      else respond cfg ext pathName req
    | none => respondNotFound req

/-- The `req.url.indexOf('static') > 0` rewrite of `start()` (server.js lines
235-237): truncate the URL to begin at the first occurrence of `static` when
that occurrence is at a non-zero offset. -/
def rewriteUrl (u : String) : String :=
  match indexOfAux staticChars u.toList with
  | some n => if 0 < n then String.mk (u.toList.drop n) else u
  | none => u

/-- The per-request body of `start()` (server.js lines 233-241): rewrite the
URL, resolve it under the root, dispatch to the router. -/
def handleRequest (cfg : Config) (ext : Ext) (origUrl : String) (hdrs : Headers) :
    Outcome :=
  let u := rewriteUrl origUrl
  let pathName := ext.pathJoinF cfg.root (ext.pathNormalizeF u)
  routeHandler cfg ext pathName ⟨u, hdrs⟩

/-! Generic lemmas about the scanning helpers. -/

theorem sw_self_append (w r : List Char) : listStartsWith w (w ++ r) = true := by
  induction w with
  | nil => rfl
  | cons c t ih => simp [listStartsWith, ih]

theorem tkw_all (l : List Char) (h : allDigits l = true) :
    l.takeWhile Char.isDigit = l := by
  induction l with
  | nil => rfl
  | cons c t ih =>
    simp only [allDigits, List.all_cons, Bool.and_eq_true] at h
    simp [List.takeWhile_cons, h.1, ih h.2]

theorem tkw_digits_dash (l r : List Char) (h : allDigits l = true) :
    (l ++ '-' :: r).takeWhile Char.isDigit = l := by
  have hdash : Char.isDigit '-' = false := by decide
  induction l with
  | nil => simp [List.takeWhile_cons, hdash]
  | cons c t ih =>
    simp only [allDigits, List.all_cons, Bool.and_eq_true] at h
    simp [List.takeWhile_cons, h.1, ih h.2]

theorem dpw_digits_dash (l r : List Char) (h : allDigits l = true) :
    (l ++ '-' :: r).dropWhile Char.isDigit = '-' :: r := by
  have hdash : Char.isDigit '-' = false := by decide
  induction l with
  | nil => simp [List.dropWhile_cons, hdash]
  | cons c t ih =>
    simp only [allDigits, List.all_cons, Bool.and_eq_true] at h
    simp [List.dropWhile_cons, h.1, ih h.2]

theorem findBytes_of_matchAt (l : List Char) (r : List Char × List Char)
    (h : matchBytesAt l = some r) : findBytesMatch l = some r := by
  cases l with
  | nil =>
    rw [show matchBytesAt [] = none from by decide] at h
    cases h
  | cons c t =>
    unfold findBytesMatch
    rw [h]

theorem matchBytesAt_two (l1 l2 : List Char) (hd1 : allDigits l1 = true)
    (hd2 : allDigits l2 = true) :
    matchBytesAt (bytesEqChars ++ (l1 ++ '-' :: l2)) = some (l1, l2) := by
  have hdrop : (bytesEqChars ++ (l1 ++ '-' :: l2)).drop 6 = l1 ++ '-' :: l2 := rfl
  simp only [matchBytesAt, sw_self_append, if_true, hdrop,
    tkw_digits_dash l1 l2 hd1, dpw_digits_dash l1 l2 hd1, tkw_all l2 hd2]

theorem matchBytesAt_suffix (l : List Char) (hd : allDigits l = true) :
    matchBytesAt (bytesEqChars ++ '-' :: l) = some ([], l) := by
  have hdash : Char.isDigit '-' = false := by decide
  have hdrop : (bytesEqChars ++ '-' :: l).drop 6 = '-' :: l := rfl
  simp [matchBytesAt, sw_self_append, if_true, hdrop, List.takeWhile_cons,
    List.dropWhile_cons, hdash, tkw_all l hd]

theorem matchBytesAt_open (l : List Char) (hd : allDigits l = true) :
    matchBytesAt (bytesEqChars ++ (l ++ ['-'])) = some (l, []) := by
  have hdrop : (bytesEqChars ++ (l ++ ['-'])).drop 6 = l ++ ['-'] := rfl
  have ht : (l ++ ['-']).takeWhile Char.isDigit = l := tkw_digits_dash l [] hd
  have hdp : (l ++ ['-']).dropWhile Char.isDigit = ['-'] := dpw_digits_dash l [] hd
  simp [matchBytesAt, sw_self_append, if_true, hdrop, ht, hdp]

theorem parseIntJS_ne (l : List Char) (h : l ≠ []) :
    parseIntJS l = some (digitsToNat l) := by
  cases l with
  | nil => exact absurd rfl h
  | cons c t => rfl

theorem mk_cons_ne_empty (c : Char) (l : List Char) : String.mk (c :: l) ≠ "" := by
  intro h
  have h2 : c :: l = ([] : List Char) := congrArg String.data h
  cases h2

/-! Reductions of `getRange` on the three well-formed header shapes. -/

theorem getRange_two (l1 l2 : List Char) (size : Int) (h1 : l1 ≠ [])
    (hd1 : allDigits l1 = true) (h2 : l2 ≠ []) (hd2 : allDigits l2 = true) :
    getRange (String.mk (bytesEqChars ++ (l1 ++ '-' :: l2))) size =
      some (some (digitsToNat l1 : Int), some (digitsToNat l2 : Int)) := by
  have hf := findBytes_of_matchAt _ _ (matchBytesAt_two l1 l2 hd1 hd2)
  simp only [getRange]
  rw [show (String.mk (bytesEqChars ++ (l1 ++ '-' :: l2))).toList =
        bytesEqChars ++ (l1 ++ '-' :: l2) from rfl, hf]
  simp [parseIntJS_ne l1 h1, parseIntJS_ne l2 h2]

theorem getRange_suffix (l : List Char) (size : Int) (h : l ≠ [])
    (hd : allDigits l = true) :
    getRange (String.mk (bytesEqChars ++ '-' :: l)) size =
      some (some (size - (digitsToNat l : Int)), some (size - 1)) := by
  have hf := findBytes_of_matchAt _ _ (matchBytesAt_suffix l hd)
  simp only [getRange]
  rw [show (String.mk (bytesEqChars ++ '-' :: l)).toList =
        bytesEqChars ++ '-' :: l from rfl, hf]
  simp [parseIntJS_ne l h, parseIntJS]

theorem getRange_open (l : List Char) (size : Int) (h : l ≠ [])
    (hd : allDigits l = true) :
    getRange (String.mk (bytesEqChars ++ (l ++ ['-']))) size =
      some (some (digitsToNat l : Int), some (size - 1)) := by
  have hf := findBytes_of_matchAt _ _ (matchBytesAt_open l hd)
  simp only [getRange]
  rw [show (String.mk (bytesEqChars ++ (l ++ ['-']))).toList =
        bytesEqChars ++ (l ++ ['-']) from rfl, hf]
  simp [parseIntJS_ne l h, parseIntJS]

/-- Reduction of `rangeHandler` once `getRange` produced two concrete bounds. -/
theorem rangeHandler_of_getRange (p t : String) (size a b : Int)
    (hg : getRange t size = some (some a, some b)) :
    rangeHandler p t size =
      (if a > b ∨ a > size ∨ b > size then
        some ⟨416, "bytes */" ++ toString size, none⟩
      else some ⟨206, crStr (some a) (some b) size, some (p, some a, some b)⟩) := by
  unfold rangeHandler
  rw [hg]
  by_cases h : a > b ∨ a > size ∨ b > size
  · rw [if_pos h]
    have hc : (jsGt (some a) (some b) || jsGtC (some a) size || jsGtC (some b) size)
        = true := by
      simp only [jsGt, jsGtC, Bool.or_eq_true, decide_eq_true_eq]
      omega
    simp [hc]
  · rw [if_neg h]
    have hc : (jsGt (some a) (some b) || jsGtC (some a) size || jsGtC (some b) size)
        = false := by
      simp only [jsGt, jsGtC, Bool.or_eq_false_iff, decide_eq_false_iff_not]
      push_neg at h
      omega
    simp [hc]

/-- C1 (corrected claim): for the explicit form `bytes=a-b`, validation is
against `totalSize`, not `totalSize - 1`: the 416 branch (empty body,
`Content-Range: bytes */size`, no stream) fires exactly when `a > b` or a
bound exceeds `totalSize`, and an accepted range satisfies
`0 <= a <= b <= totalSize` (so `end` may equal `totalSize`). -/
theorem C1_spec (p : String) (l1 l2 : List Char) (size a b : Int)
    (h1 : l1 ≠ []) (hd1 : allDigits l1 = true)
    (h2 : l2 ≠ []) (hd2 : allDigits l2 = true)
    (ha : a = (digitsToNat l1 : Int)) (hb : b = (digitsToNat l2 : Int)) :
    ((a > b ∨ a > size ∨ b > size) →
      rangeHandler p (String.mk (bytesEqChars ++ (l1 ++ '-' :: l2))) size =
        some ⟨416, "bytes */" ++ toString size, none⟩) ∧
    (a ≤ b → a ≤ size → b ≤ size →
      rangeHandler p (String.mk (bytesEqChars ++ (l1 ++ '-' :: l2))) size =
        some ⟨206, crStr (some a) (some b) size, some (p, some a, some b)⟩ ∧
      0 ≤ a ∧ a ≤ b ∧ b ≤ size) ∧
    (∀ (cfg : Config) (ext : Ext) (st : FileStat) (req : Req) (h0 : Headers),
      lookupH req.headers "range" =
        some (String.mk (bytesEqChars ++ (l1 ++ '-' :: l2))) →
      st.size = size →
      (a > b ∨ a > size ∨ b > size) →
      respondFile cfg ext (some st) p req h0 =
        .ok ⟨416,
          setH (setH (setH h0 "content-type" (mimeLookup ext p))
            "accept-ranges" "bytes") "content-range"
            ("bytes */" ++ toString size), .empty⟩) := by
  have hg : getRange (String.mk (bytesEqChars ++ (l1 ++ '-' :: l2))) size =
      some (some a, some b) := by
    rw [ha, hb]; exact getRange_two l1 l2 size h1 hd1 h2 hd2
  have hr := rangeHandler_of_getRange p _ size a b hg
  refine ⟨?_, ?_, ?_⟩
  · intro h
    rw [hr, if_pos h]
  · intro hab has hbs
    have hno : ¬ (a > b ∨ a > size ∨ b > size) := by push_neg; exact ⟨hab, has, hbs⟩
    refine ⟨by rw [hr, if_neg hno], ?_, hab, hbs⟩
    rw [ha]
    exact Int.natCast_nonneg _
  · intro cfg ext st req h0 hreq hsz h
    have hne : String.mk (bytesEqChars ++ (l1 ++ '-' :: l2)) ≠ "" :=
      mk_cons_ne_empty 'b' _
    have h416 : rangeHandler p (String.mk (bytesEqChars ++ (l1 ++ '-' :: l2)))
        st.size = some ⟨416, "bytes */" ++ toString size, none⟩ := by
      rw [hsz, hr, if_pos h]
    simp only [respondFile, hreq]
    rw [if_neg hne]
    simp only [h416]

/-- C1 counterexample: with a 10-byte file, `bytes=0-10` has `end = size`
(exceeding `size - 1`), yet `rangeHandler` answers 206 and opens a stream
instead of answering 416. -/
theorem C1_counterexample :
    rangeHandler "f.txt" "bytes=0-10" 10 =
      some ⟨206, "bytes 0-10/10", some ("f.txt", some 0, some 10)⟩ ∧
    ¬ ((10 : Int) < 10) := by
  constructor
  · decide
  · decide

/-- C1 witness: `bytes=0-5` on a 100-byte file is accepted as `[0, 5]`. -/
theorem C1_witness :
    rangeHandler "f.txt" (String.mk (bytesEqChars ++ (['0'] ++ '-' :: ['5']))) 100 =
      some ⟨206, crStr (some 0) (some 5) 100, some ("f.txt", some 0, some 5)⟩ ∧
    (0 : Int) ≤ 0 ∧ (0 : Int) ≤ 5 ∧ (5 : Int) ≤ 100 :=
  (C1_spec "f.txt" ['0'] ['5'] 100 0 5 (by decide) (by decide) (by decide)
    (by decide) (by decide) (by decide)).2.1 (by decide) (by decide) (by decide)

/-- C3 (corrected claim): on `bytes=-` (both capture groups empty) `getRange`
does return the undefined pair `(NaN, NaN)`, but the caller does not detect
it: every comparison against `NaN` is false, so `rangeHandler` falls through
to the 206 stream-opening branch with `NaN` bounds; and on input not
containing the pattern at all, `getRange` throws (the regex match is `null`)
instead of returning a detectable pair. -/
theorem C3_spec (p : String) (size : Int) :
    getRange "bytes=-" size = some (none, none) ∧
    rangeHandler p "bytes=-" size =
      some ⟨206, crStr none none size, some (p, none, none)⟩ ∧
    getRange "0-5" size = none := by
  exact ⟨rfl, rfl, rfl⟩

/-- C3 counterexample: `bytes=-` is malformed (neither group parses), yet
`rangeHandler` reaches its 206 stream-opening branch; and `getRange` on an
input without the `bytes=...-...` pattern returns no pair at all (it throws). -/
theorem C3_counterexample :
    rangeHandler "f.txt" "bytes=-" 10 =
      some ⟨206, "bytes NaN-NaN/10", some ("f.txt", none, none)⟩ ∧
    getRange "0-5" 10 = none := by
  constructor
  · decide
  · decide

/-- C3 witness: the malformed-input behaviour at a concrete size. -/
theorem C3_witness :
    rangeHandler "f.txt" "bytes=-" 7 =
      some ⟨206, crStr none none 7, some ("f.txt", none, none)⟩ ∧
    getRange "0-5" 7 = none :=
  ⟨(C3_spec "f.txt" 7).2.1, (C3_spec "f.txt" 7).2.2⟩

/-- C5 (confirmed): the suffix form `bytes=-n` with `0 < n <= size` resolves
to `[size - n, size - 1]`, and the open-ended form `bytes=a-` resolves to
`[a, size - 1]`. -/
theorem C5_spec (l1 l2 : List Char) (size n a : Int)
    (h1 : l1 ≠ []) (hd1 : allDigits l1 = true) (hn : n = (digitsToNat l1 : Int))
    (_hpos : 0 < n) (_hle : n ≤ size)
    (h2 : l2 ≠ []) (hd2 : allDigits l2 = true) (ha : a = (digitsToNat l2 : Int)) :
    getRange (String.mk (bytesEqChars ++ '-' :: l1)) size =
      some (some (size - n), some (size - 1)) ∧
    getRange (String.mk (bytesEqChars ++ (l2 ++ ['-']))) size =
      some (some a, some (size - 1)) := by
  constructor
  · rw [hn]; exact getRange_suffix l1 size h1 hd1
  · rw [ha]; exact getRange_open l2 size h2 hd2

/-- C5 witness: `bytes=-5` on a 10-byte file resolves to `[5, 9]` and
`bytes=3-` to `[3, 9]`. -/
theorem C5_witness :
    getRange (String.mk (bytesEqChars ++ '-' :: ['5'])) 10 =
      some (some 5, some 9) ∧
    getRange (String.mk (bytesEqChars ++ (['3'] ++ ['-']))) 10 =
      some (some 3, some 9) :=
  C5_spec ['5'] ['3'] 10 5 3 (by decide) (by decide) (by decide) (by decide)
    (by decide) (by decide) (by decide) (by decide)

/-! Concrete instantiations used to exhibit witnesses and counterexamples. -/

/-- A concrete configuration with every toggle on and a non-compressible
`zipMatch`. -/
def cfgT : Config :=
  { root := "r", indexPage := "index.html", enableCacheControl := true,
    enableExpires := true, enableETag := true, enableLastModified := true,
    maxAge := 600, zipMatchF := fun _ => false }

/-- Concrete collaborators over an empty filesystem (`stat` always fails). -/
def extTest : Ext :=
  { statF := fun _ => none, existsSyncF := fun _ => false,
    readdirF := fun _ => none, pathJoinF := fun a b => a ++ "/" ++ b,
    pathNormalizeF := fun s => s, extnameF := fun _ => "",
    toUTCStringF := fun n => toString n, nowMs := 0 }

/-- A directory stat. -/
def stDir : FileStat := ⟨true, 0, 0⟩

/-- Collaborators over a filesystem where every path stats as a directory. -/
def extDir : Ext := { extTest with statF := fun _ => some stDir }

/-- A plain-file stat: 5 bytes, mtime 16 ms. -/
def stFile : FileStat := ⟨false, 5, 16⟩

/-- Collaborators over a filesystem where every path stats as `stFile`. -/
def extFile : Ext := { extTest with statF := fun _ => some stFile }

/-- Header-lookup distributes over `setFreshHeaders` for any key that is none
of the four cache keys. -/
theorem setFreshHeaders_lookup_other (cfg : Config) (ext : Ext) (st : FileStat)
    (hs : Headers) (k : String) (hk1 : k ≠ "last-modified")
    (hk2 : k ≠ "cache-control") (hk3 : k ≠ "etag") (hk4 : k ≠ "expires") :
    lookupH (setFreshHeaders cfg ext st hs) k = lookupH hs k := by
  unfold setFreshHeaders setH
  by_cases h1 : cfg.enableLastModified <;> by_cases h2 : cfg.enableCacheControl <;>
  by_cases h3 : cfg.enableETag <;> by_cases h4 : cfg.enableExpires <;>
  simp [h1, h2, h3, h4, lookupH, Ne.symm hk1, Ne.symm hk2, Ne.symm hk3, Ne.symm hk4]

/-- C6 (corrected claim): `isFresh` treats "present" by JS truthiness, so an
empty-string conditional header counts as absent: freshness holds iff at
least one of the two conditional headers is truthy (present and non-empty),
a truthy `If-None-Match` equals the response `ETag`, and a truthy
`If-Modified-Since` equals the response `Last-Modified` (exact string
comparison). -/
theorem C6_spec (reqH resH : Headers) :
    isFresh reqH resH = true ↔
      ((truthyOpt (lookupH reqH "if-none-match") = true ∨
        truthyOpt (lookupH reqH "if-modified-since") = true) ∧
       (truthyOpt (lookupH reqH "if-none-match") = true →
        lookupH reqH "if-none-match" = lookupH resH "etag") ∧
       (truthyOpt (lookupH reqH "if-modified-since") = true →
        lookupH reqH "if-modified-since" = lookupH resH "last-modified")) := by
  cases hnm : truthyOpt (lookupH reqH "if-none-match") <;>
  cases hlm : truthyOpt (lookupH reqH "if-modified-since") <;>
  simp [isFresh, hnm, hlm, beq_iff_eq]

/-- C6 counterexample: a request carrying a present-but-empty `If-None-Match`
(value `""`, different from the response `ETag` `"abc"`) together with a
matching `If-Modified-Since` is judged fresh by the code, while the claim
(reading "present" as key-present) requires it not to be. -/
theorem C6_counterexample :
    isFresh [("if-none-match", ""), ("if-modified-since", "X")]
      [("etag", "abc"), ("last-modified", "X")] = true ∧
    lookupH [("if-none-match", ""), ("if-modified-since", "X")] "if-none-match" =
      some "" ∧
    lookupH [("etag", "abc"), ("last-modified", "X")] "etag" = some "abc" ∧
    (some "" : Option String) ≠ some "abc" := by
  refine ⟨by decide, by decide, by decide, by decide⟩

/-- C6 witness: a matching non-empty `If-None-Match` alone is fresh. -/
theorem C6_witness :
    isFresh [("if-none-match", "W")] [("etag", "W")] = true :=
  (C6_spec [("if-none-match", "W")] [("etag", "W")]).mpr (by decide)

/-- C7 (confirmed): when the stat succeeds and the request is judged fresh
against the just-set freshness headers, `respond` answers 304 carrying
exactly those freshness headers, with an empty body, and no `Content-Type`
header is set on this path. -/
theorem C7_spec (cfg : Config) (ext : Ext) (pathName : String) (req : Req)
    (st : FileStat) (hstat : ext.statF pathName = some st)
    (hfresh : isFresh req.headers (setFreshHeaders cfg ext st []) = true) :
    respond cfg ext pathName req =
      .ok ⟨304, setFreshHeaders cfg ext st [], .empty⟩ ∧
    lookupH (setFreshHeaders cfg ext st []) "content-type" = none := by
  constructor
  · simp only [respond, hstat]
    rw [if_pos hfresh]
  · exact setFreshHeaders_lookup_other cfg ext st [] "content-type"
      (by decide) (by decide) (by decide) (by decide)

/-- C7 witness: a concrete fresh conditional request is answered 304 with the
freshness headers only. -/
theorem C7_witness :
    respond cfgT extFile "/f" ⟨"/f", [("if-modified-since", "16")]⟩ =
      .ok ⟨304, setFreshHeaders cfgT extFile stFile [], .empty⟩ ∧
    lookupH (setFreshHeaders cfgT extFile stFile []) "content-type" = none :=
  C7_spec cfgT extFile "/f" ⟨"/f", [("if-modified-since", "16")]⟩ stFile rfl
    (by decide)

/-! Lemmas about the compression stage and the streaming tail of
`respondFile`. -/

/-- `offersWord ae w`: the request's `Accept-Encoding` offers the word `w`
(absent header offers nothing). -/
def offersWord (ae : Option String) (w : List Char) : Bool :=
  match ae with
  | none => false
  | some s => containsWord s w

/-- `compressHandler` never takes its unreachable final branch: the guard
already ensured one of the two words occurs. -/
theorem compressHandler_ne_none (ae : Option String) (hs : Headers) :
    compressHandler ae hs ≠ none := by
  cases ae with
  | none => simp [compressHandler]
  | some s =>
    simp only [compressHandler]
    split_ifs with h1 h2 h3 h4 <;> simp_all

/-- On success `compressHandler` returns the headers unchanged or with one
`Content-Encoding` binding added. -/
theorem compressHandler_headers (ae : Option String) (hs : Headers) (enc : Enc)
    (hs2 : Headers) (h : compressHandler ae hs = some (enc, hs2)) :
    hs2 = hs ∨ ∃ v, hs2 = setH hs "content-encoding" v := by
  cases ae with
  | none =>
    simp only [compressHandler, Option.some.injEq, Prod.mk.injEq] at h
    exact Or.inl h.2.symm
  | some s =>
    simp only [compressHandler] at h
    split_ifs at h <;>
      simp only [Option.some.injEq, Prod.mk.injEq, reduceCtorEq] at h
    · exact Or.inl h.2.symm
    · exact Or.inl h.2.symm
    · exact Or.inr ⟨"gzip", h.2.symm⟩
    · exact Or.inr ⟨"deflate", h.2.symm⟩

/-- `compressHandler` chooses gzip whenever the header offers it. -/
theorem compressHandler_gzip (s : String) (hs : Headers)
    (hg : containsWord s gzipChars = true) :
    compressHandler (some s) hs = some (.gzipEnc, setH hs "content-encoding" "gzip") := by
  have hne : s ≠ "" := by
    intro he
    subst he
    rw [show containsWord "" gzipChars = false from rfl] at hg
    cases hg
  simp [compressHandler, hne, hg]

/-- `compressHandler` chooses deflate when gzip is not offered but deflate is. -/
theorem compressHandler_deflate (s : String) (hs : Headers)
    (hg : containsWord s gzipChars = false) (hd : containsWord s deflateChars = true) :
    compressHandler (some s) hs =
      some (.deflateEnc, setH hs "content-encoding" "deflate") := by
  have hne : s ≠ "" := by
    intro he
    subst he
    rw [show containsWord "" deflateChars = false from rfl] at hd
    cases hd
  simp [compressHandler, hne, hg, hd]

/-- `compressHandler` passes the stream through untouched when neither word is
offered. -/
theorem compressHandler_pass (ae : Option String) (hs : Headers)
    (hg : offersWord ae gzipChars = false) (hd : offersWord ae deflateChars = false) :
    compressHandler ae hs = some (.identity, hs) := by
  cases ae with
  | none => rfl
  | some s =>
    simp only [offersWord] at hg hd
    by_cases hne : s = ""
    · simp [compressHandler, hne]
    · simp [compressHandler, hne, hg, hd]

/-- The streaming tail always responds with the status it was handed. -/
theorem statusOf_finishStream (cfg : Config) (ext : Ext) (pathName : String)
    (req : Req) (hs : Headers) (status : Nat)
    (rng : Option (Option Int × Option Int)) :
    statusOf (finishStream cfg ext pathName req hs status rng) = some status := by
  unfold finishStream
  by_cases hc : shouldCompress cfg ext pathName
  · rw [if_pos hc]
    cases h : compressHandler (lookupH req.headers "accept-encoding") hs with
    | none => exact absurd h (compressHandler_ne_none _ _)
    | some r =>
      obtain ⟨enc, hs2⟩ := r
      rfl
  · rw [if_neg hc]
    rfl

/-- The streaming tail serves a stream over the handed path/range, with the
handed headers possibly extended by one `Content-Encoding` binding. -/
theorem finishStream_ok (cfg : Config) (ext : Ext) (pathName : String)
    (req : Req) (hs : Headers) (status : Nat)
    (rng : Option (Option Int × Option Int)) (r : Resp)
    (h : finishStream cfg ext pathName req hs status rng = .ok r) :
    r.status = status ∧ (∃ enc, r.body = .fileStream pathName rng enc) ∧
    (r.headers = hs ∨ ∃ v, r.headers = setH hs "content-encoding" v) := by
  unfold finishStream at h
  by_cases hc : shouldCompress cfg ext pathName
  · rw [if_pos hc] at h
    cases hch : compressHandler (lookupH req.headers "accept-encoding") hs with
    | none => rw [hch] at h; cases h
    | some pr =>
      obtain ⟨enc, hs2⟩ := pr
      rw [hch] at h
      cases h
      exact ⟨rfl, ⟨enc, rfl⟩, compressHandler_headers _ _ _ _ hch⟩
  · rw [if_neg hc] at h
    cases h
    exact ⟨rfl, ⟨.identity, rfl⟩, Or.inl rfl⟩

/-- A truthy optional string is a present non-empty string. -/
theorem truthy_some (o : Option String) (h : truthyOpt o = true) :
    ∃ s, o = some s ∧ s ≠ "" := by
  cases o with
  | none => cases h
  | some s =>
    refine ⟨s, rfl, ?_⟩
    simp only [truthyOpt, Bool.not_eq_true', beq_eq_false_iff_ne, ne_eq] at h
    exact h

/-- With the `null` stat of the SPA fallback and a truthy `Range` header,
`respondFile` reads `null.size` and throws. -/
theorem respondFile_null_range (cfg : Config) (ext : Ext) (pathName : String)
    (req : Req) (h0 : Headers) (rv : String)
    (hr : lookupH req.headers "range" = some rv) (hne : rv ≠ "") :
    respondFile cfg ext none pathName req h0 = .crash "stat.size on null" := by
  simp only [respondFile, hr]
  rw [if_neg hne]

/-- Without a truthy `Range` header, `respondFile` streams the whole file with
status 200 (for any stat argument). -/
theorem respondFile_no_range (cfg : Config) (ext : Ext) (stat : Option FileStat)
    (pathName : String) (req : Req) (h0 : Headers)
    (h : truthyOpt (lookupH req.headers "range") = false) :
    ∃ hs enc, respondFile cfg ext stat pathName req h0 =
      .ok ⟨200, hs, .fileStream pathName none enc⟩ := by
  have hfin : ∀ hs2 : Headers, ∃ hs3 enc,
      finishStream cfg ext pathName req hs2 200 none =
        .ok ⟨200, hs3, .fileStream pathName none enc⟩ := by
    intro hs2
    unfold finishStream
    by_cases hc : shouldCompress cfg ext pathName
    · rw [if_pos hc]
      cases hch : compressHandler (lookupH req.headers "accept-encoding") hs2 with
      | none => exact absurd hch (compressHandler_ne_none _ _)
      | some pr =>
        obtain ⟨enc, hs3⟩ := pr
        exact ⟨hs3, enc, rfl⟩
    · rw [if_neg hc]
      exact ⟨hs2, .identity, rfl⟩
  cases hr : lookupH req.headers "range" with
  | none =>
    simp only [respondFile, hr]
    exact hfin _
  | some rv =>
    rw [hr] at h
    have hrv : rv = "" := by
      by_contra hne
      simp [truthyOpt, hne] at h
    simp only [respondFile, hr]
    rw [if_pos hrv]
    exact hfin _

/-- Any `ok` response of `respondFile` with the `null` stat and fresh headers
has status 200 and carries no header besides `Content-Type`, `Accept-Ranges`
and possibly `Content-Encoding`. -/
theorem respondFile_none_ok (cfg : Config) (ext : Ext) (p : String) (req : Req)
    (r : Resp) (h : respondFile cfg ext none p req [] = .ok r) :
    r.status = 200 ∧ ∀ k, k ≠ "content-type" → k ≠ "accept-ranges" →
      k ≠ "content-encoding" → lookupH r.headers k = none := by
  have hlook : ∀ k, k ≠ "content-type" → k ≠ "accept-ranges" →
      lookupH (setH (setH [] "content-type" (mimeLookup ext p))
        "accept-ranges" "bytes") k = none := by
    intro k hk1 hk2
    simp [setH, lookupH, Ne.symm hk1, Ne.symm hk2]
  have hfin : finishStream cfg ext p req
      (setH (setH [] "content-type" (mimeLookup ext p)) "accept-ranges" "bytes")
      200 none = .ok r →
      r.status = 200 ∧ ∀ k, k ≠ "content-type" → k ≠ "accept-ranges" →
        k ≠ "content-encoding" → lookupH r.headers k = none := by
    intro hf
    obtain ⟨hst, _, hhd⟩ := finishStream_ok _ _ _ _ _ _ _ _ hf
    refine ⟨hst, ?_⟩
    intro k hk1 hk2 hk3
    rcases hhd with hhd | ⟨v, hhd⟩
    · rw [hhd]
      exact hlook k hk1 hk2
    · rw [hhd]
      simp only [setH, lookupH]
      rw [if_neg (Ne.symm hk3)]
      exact hlook k hk1 hk2
  cases hr : lookupH req.headers "range" with
  | none =>
    simp only [respondFile, hr] at h
    exact hfin h
  | some rv =>
    by_cases hrv : rv = ""
    · simp only [respondFile, hr] at h
      rw [if_pos hrv] at h
      exact hfin h
    · rw [respondFile_null_range cfg ext p req [] rv hr hrv] at h
      cases h

/-- The SPA-fallback branch of `routeHandler`. -/
theorem routeHandler_spa (cfg : Config) (ext : Ext) (pathName : String) (req : Req)
    (hspa : (containsSub pathName.toList articleChars ||
             containsSub pathName.toList homepageChars) = true) :
    routeHandler cfg ext pathName req =
      respondFile cfg ext none (ext.pathJoinF cfg.root cfg.indexPage) req [] := by
  unfold routeHandler
  rw [hspa, if_pos rfl]

/-- The redirect branch of `routeHandler`: existing directory, no trailing
slash. -/
theorem routeHandler_redirect (cfg : Config) (ext : Ext) (pathName : String)
    (req : Req) (st : FileStat)
    (hspa : (containsSub pathName.toList articleChars ||
             containsSub pathName.toList homepageChars) = false)
    (hstat : ext.statF pathName = some st) (hdir : st.isDirectory = true)
    (hts : hasTrailingSlash (urlPathname req.url) = false) :
    routeHandler cfg ext pathName req = respondRedirect req := by
  unfold routeHandler
  rw [hspa, if_neg Bool.false_ne_true, hstat]
  simp [hts, hdir]

/-- The not-found branch of `routeHandler`: the stat failed. -/
theorem routeHandler_notfound (cfg : Config) (ext : Ext) (pathName : String)
    (req : Req)
    (hspa : (containsSub pathName.toList articleChars ||
             containsSub pathName.toList homepageChars) = false)
    (hstat : ext.statF pathName = none) :
    routeHandler cfg ext pathName req = respondNotFound req := by
  unfold routeHandler
  rw [hspa, if_neg Bool.false_ne_true, hstat]

/-! List-scanning lemmas for substring containment. -/

theorem indexOfAux_isSome_of_sw (sub l : List Char)
    (h : listStartsWith sub l = true) : (indexOfAux sub l).isSome = true := by
  cases l with
  | nil => simp [indexOfAux, h]
  | cons c t => simp [indexOfAux, h]

theorem indexOfAux_isSome_append (sub a l : List Char)
    (h : (indexOfAux sub l).isSome = true) :
    (indexOfAux sub (a ++ l)).isSome = true := by
  induction a with
  | nil => exact h
  | cons c t ih =>
    simp only [List.cons_append, indexOfAux]
    by_cases hsw : listStartsWith sub (c :: (t ++ l)) = true
    · simp [hsw]
    · simp only [Bool.not_eq_true] at hsw
      simp [hsw, Option.isSome_map, ih]

/-- The middle part of a concatenation occurs as a substring. -/
theorem containsSub_mid (a b c : List Char) :
    containsSub ((a ++ b) ++ c) b = true := by
  rw [List.append_assoc]
  exact indexOfAux_isSome_append b a (b ++ c)
    (indexOfAux_isSome_of_sw b (b ++ c) (sw_self_append b c))

theorem strData_append (s t : String) : (s ++ t).data = s.data ++ t.data := by
  cases s
  cases t
  rfl

/-- The not-found body contains the URL interpolated into it. -/
theorem containsSub_notFoundBody (u : String) :
    containsSub (notFoundBody u).toList u.toList = true := by
  have h : (notFoundBody u).toList =
      ("<h1>Not Found</h1><p>The requested URL ".data ++ u.data) ++
        " was not found on this server.</p>".data := by
    rw [show (notFoundBody u).toList =
          (("<h1>Not Found</h1><p>The requested URL " ++ u) ++
            " was not found on this server.</p>").data from rfl,
        strData_append, strData_append]
  rw [h]
  exact containsSub_mid _ _ _

/-- C2 (corrected claim): when the resolved path contains `article/` or
`homepage`, the router serves the root index page (the configured index file
joined onto the root) regardless of what is on disk — but only for requests
without a truthy `Range` header; with one, the handler dereferences the
`null` stat and throws instead of serving. -/
theorem C2_spec (cfg : Config) (ext : Ext) (pathName : String) (req : Req)
    (hspa : (containsSub pathName.toList articleChars ||
             containsSub pathName.toList homepageChars) = true)
    (hnr : truthyOpt (lookupH req.headers "range") = false) :
    ∃ hs enc, routeHandler cfg ext pathName req =
      .ok ⟨200, hs, .fileStream (ext.pathJoinF cfg.root cfg.indexPage) none enc⟩ := by
  rw [routeHandler_spa cfg ext pathName req hspa]
  exact respondFile_no_range cfg ext none _ req [] hnr

/-- C2 counterexample: an SPA-fallback request that does carry a `Range`
header is not served the index page at all — `respondFile` reads `size` from
the `null` stat and the handler throws. -/
theorem C2_counterexample :
    routeHandler cfgT extTest "article/x" ⟨"article/x", [("range", "bytes=0-1")]⟩ =
      .crash "stat.size on null" := by
  decide

/-- C2 witness: a rangeless request whose path contains `homepage` is served
the root index file even though nothing exists on disk. -/
theorem C2_witness :
    ∃ hs enc, routeHandler cfgT extTest "homepage" ⟨"/homepage", []⟩ =
      .ok ⟨200, hs, .fileStream (extTest.pathJoinF cfgT.root cfgT.indexPage) none enc⟩ :=
  C2_spec cfgT extTest "homepage" ⟨"/homepage", []⟩ (by decide) (by decide)

/-- C4 (corrected claim): a directory path without trailing slash draws a 301
whose `Location` is the *rewritten* request URL plus `/`; this equals the
original URL plus `/` exactly when the URL does not contain `static` at a
non-zero offset — when it does, `req.url` was truncated first and `Location`
names the truncated URL. -/
theorem C4_spec (cfg : Config) (ext : Ext) (origUrl : String) (hdrs : Headers)
    (st : FileStat)
    (hspa : (containsSub (ext.pathJoinF cfg.root
               (ext.pathNormalizeF (rewriteUrl origUrl))).toList articleChars ||
             containsSub (ext.pathJoinF cfg.root
               (ext.pathNormalizeF (rewriteUrl origUrl))).toList homepageChars) = false)
    (hstat : ext.statF (ext.pathJoinF cfg.root
               (ext.pathNormalizeF (rewriteUrl origUrl))) = some st)
    (hdir : st.isDirectory = true)
    (hts : hasTrailingSlash (urlPathname (rewriteUrl origUrl)) = false) :
    handleRequest cfg ext origUrl hdrs =
      .ok ⟨301, [("location", rewriteUrl origUrl ++ "/"), ("content-type", "text/html")],
        .text ("Redirecting to <a href=\x27" ++ (rewriteUrl origUrl ++ "/") ++ "\x27>" ++
          (rewriteUrl origUrl ++ "/") ++ "</a>")⟩ ∧
    ((∀ n, indexOfAux staticChars origUrl.toList = some n → n = 0) →
      rewriteUrl origUrl = origUrl) := by
  constructor
  · show routeHandler cfg ext
      (ext.pathJoinF cfg.root (ext.pathNormalizeF (rewriteUrl origUrl)))
      ⟨rewriteUrl origUrl, hdrs⟩ = _
    rw [routeHandler_redirect cfg ext _ ⟨rewriteUrl origUrl, hdrs⟩ st hspa hstat
      hdir hts]
    rfl
  · intro h
    unfold rewriteUrl
    cases hidx : indexOfAux staticChars origUrl.toList with
    | none => rfl
    | some n =>
      have hz : n = 0 := h n hidx
      subst hz
      rfl

/-- C4 counterexample: for the original URL `/foo/static` (containing `static`
at offset 5), the redirect `Location` is `static/` — the truncated URL plus
`/` — not the original URL plus `/`. -/
theorem C4_counterexample :
    handleRequest cfgT extDir "/foo/static" [] =
      .ok ⟨301, [("location", "static/"), ("content-type", "text/html")],
        .text ("Redirecting to <a href=\x27static/\x27>static/</a>")⟩ ∧
    "static/" ≠ "/foo/static" ++ "/" := by
  refine ⟨by decide, by decide⟩

/-- C4 witness: without a `static` rewrite the `Location` is the original URL
plus `/`. -/
theorem C4_witness :
    handleRequest cfgT extDir "/d" [] =
      .ok ⟨301, [("location", rewriteUrl "/d" ++ "/"), ("content-type", "text/html")],
        .text ("Redirecting to <a href=\x27" ++ (rewriteUrl "/d" ++ "/") ++ "\x27>" ++
          (rewriteUrl "/d" ++ "/") ++ "</a>")⟩ ∧
    rewriteUrl "/d" = "/d" := by
  have h := C4_spec cfgT extDir "/d" [] stDir (by decide) rfl rfl (by decide)
  exact ⟨h.1, h.2 (by decide)⟩

/-- C8 (corrected claim): a non-SPA path that fails to stat draws a 400 with
`Content-Type: text/html` and an HTML body naming the *rewritten* request URL
(which is the requested URL whenever no `static` rewrite applies, but only a
suffix of it when the URL contained `static` at a non-zero offset). -/
theorem C8_spec (cfg : Config) (ext : Ext) (origUrl : String) (hdrs : Headers)
    (hspa : (containsSub (ext.pathJoinF cfg.root
               (ext.pathNormalizeF (rewriteUrl origUrl))).toList articleChars ||
             containsSub (ext.pathJoinF cfg.root
               (ext.pathNormalizeF (rewriteUrl origUrl))).toList homepageChars) = false)
    (hstat : ext.statF (ext.pathJoinF cfg.root
               (ext.pathNormalizeF (rewriteUrl origUrl))) = none) :
    handleRequest cfg ext origUrl hdrs =
      .ok ⟨400, [("content-type", "text/html")],
        .text (notFoundBody (rewriteUrl origUrl))⟩ ∧
    containsSub (notFoundBody (rewriteUrl origUrl)).toList
      (rewriteUrl origUrl).toList = true := by
  constructor
  · show routeHandler cfg ext
      (ext.pathJoinF cfg.root (ext.pathNormalizeF (rewriteUrl origUrl)))
      ⟨rewriteUrl origUrl, hdrs⟩ = _
    rw [routeHandler_notfound cfg ext _ ⟨rewriteUrl origUrl, hdrs⟩ hspa hstat]
    rfl
  · exact containsSub_notFoundBody _

/-- C8 counterexample: for the request URL `/x/static/nope` the 400 body names
the rewritten URL `static/nope` and does not contain the literal requested
URL `/x/static/nope`. -/
theorem C8_counterexample :
    handleRequest cfgT extTest "/x/static/nope" [] =
      .ok ⟨400, [("content-type", "text/html")],
        .text (notFoundBody "static/nope")⟩ ∧
    containsSub (notFoundBody "static/nope").toList "/x/static/nope".toList = false := by
  refine ⟨by decide, by decide⟩

/-- C8 witness: `GET /foo/` over an empty filesystem draws 400, text/html,
with the body naming `/foo/`. -/
theorem C8_witness :
    handleRequest cfgT extTest "/foo/" [] =
      .ok ⟨400, [("content-type", "text/html")],
        .text (notFoundBody (rewriteUrl "/foo/"))⟩ ∧
    containsSub (notFoundBody (rewriteUrl "/foo/")).toList
      (rewriteUrl "/foo/").toList = true :=
  C8_spec cfgT extTest "/foo/" [] (by decide) rfl

/-- C9 (confirmed): for a compressible file, `compressHandler` gzip-wraps the
stream and sets `Content-Encoding: gzip` whenever the request offers gzip
(also when deflate is offered too), deflate-wraps when only deflate is
offered, and passes the stream through untouched when neither is offered; it
never returns the unreachable `undefined`, and running the compression stage
never changes the status code `respondFile` answers with. -/
theorem C9_spec (ae : Option String) (hs : Headers) (cfg : Config) (ext : Ext)
    (stat : Option FileStat) (p : String) (req : Req) (h0 : Headers) :
    ((offersWord ae gzipChars = true →
        compressHandler ae hs = some (.gzipEnc, setH hs "content-encoding" "gzip")) ∧
     (offersWord ae gzipChars = false → offersWord ae deflateChars = true →
        compressHandler ae hs = some (.deflateEnc, setH hs "content-encoding" "deflate")) ∧
     (offersWord ae gzipChars = false → offersWord ae deflateChars = false →
        compressHandler ae hs = some (.identity, hs)) ∧
     compressHandler ae hs ≠ none) ∧
    statusOf (respondFile cfg ext stat p req h0) =
      statusOf (respondFile { cfg with zipMatchF := fun _ => false } ext stat p req h0) := by
  constructor
  · refine ⟨?_, ?_, ?_, compressHandler_ne_none ae hs⟩
    · intro hg
      cases ae with
      | none => cases hg
      | some s => exact compressHandler_gzip s hs hg
    · intro hg hd
      cases ae with
      | none => cases hd
      | some s => exact compressHandler_deflate s hs hg hd
    · intro hg hd
      exact compressHandler_pass ae hs hg hd
  · cases hr : lookupH req.headers "range" with
    | none =>
      simp only [respondFile, hr]
      rw [statusOf_finishStream, statusOf_finishStream]
    | some rv =>
      simp only [respondFile, hr]
      by_cases hrv : rv = ""
      · rw [if_pos hrv, if_pos hrv, statusOf_finishStream, statusOf_finishStream]
      · rw [if_neg hrv, if_neg hrv]
        cases stat with
        | none => rfl
        | some st =>
          cases hrh : rangeHandler p rv st.size with
          | none => simp only [hrh]
          | some rr =>
            simp only [hrh]
            cases hst : rr.stream with
            | none => simp only [hst]
            | some pse =>
              obtain ⟨q, s, e⟩ := pse
              simp only [hst]
              rw [statusOf_finishStream, statusOf_finishStream]

/-- C9 witness: a request offering both encodings gets gzip (and the header). -/
theorem C9_witness :
    compressHandler (some "gzip, deflate") [] =
      some (.gzipEnc, setH [] "content-encoding" "gzip") :=
  (C9_spec (some "gzip, deflate") [] cfgT extTest none "f" ⟨"f", []⟩ []).1.1
    (by decide)

/-- C10 (confirmed, implicit claim): the SPA-fallback branch calls
`respondFile` directly with the `null` stat, bypassing the freshness
pipeline: any response it produces carries none of `ETag`, `Last-Modified`,
`Cache-Control`, `Expires` and is never 304; and a truthy `Range` header
makes it read `size` from the `null` stat and throw. -/
theorem C10_spec (cfg : Config) (ext : Ext) (pathName : String) (req : Req)
    (hspa : (containsSub pathName.toList articleChars ||
             containsSub pathName.toList homepageChars) = true) :
    (routeHandler cfg ext pathName req =
      respondFile cfg ext none (ext.pathJoinF cfg.root cfg.indexPage) req []) ∧
    (∀ r, routeHandler cfg ext pathName req = .ok r →
      lookupH r.headers "etag" = none ∧
      lookupH r.headers "last-modified" = none ∧
      lookupH r.headers "cache-control" = none ∧
      lookupH r.headers "expires" = none ∧
      r.status ≠ 304) ∧
    (truthyOpt (lookupH req.headers "range") = true →
      routeHandler cfg ext pathName req = .crash "stat.size on null") := by
  have hroute := routeHandler_spa cfg ext pathName req hspa
  refine ⟨hroute, ?_, ?_⟩
  · intro r hr
    rw [hroute] at hr
    obtain ⟨hst, hlook⟩ := respondFile_none_ok cfg ext _ req r hr
    refine ⟨hlook _ (by decide) (by decide) (by decide),
      hlook _ (by decide) (by decide) (by decide),
      hlook _ (by decide) (by decide) (by decide),
      hlook _ (by decide) (by decide) (by decide), ?_⟩
    rw [hst]
    decide
  · intro ht
    obtain ⟨rv, hrv, hne⟩ := truthy_some _ ht
    rw [hroute]
    exact respondFile_null_range cfg ext _ req [] rv hrv hne

/-- C10 witness: with a `Range` header the SPA fallback crashes on the `null`
stat. -/
theorem C10_witness :
    routeHandler cfgT extTest "x/homepage/y" ⟨"x/homepage/y", [("range", "bytes=0-4")]⟩ =
      .crash "stat.size on null" :=
  (C10_spec cfgT extTest "x/homepage/y" ⟨"x/homepage/y", [("range", "bytes=0-4")]⟩
    (by decide)).2.2 (by decide)

end StaticServer
